import Mathlib

/-!
Verification of the archive data-join / filtering core.

This file gives a shallow embedding of the data model and the pure
transformation/query functions of the two pages of the archive demo:

* the 2D search page (namespace `Search`): `numericYear`, `cleanFileDisplay`,
  `coerceTags`, `buildDocs`, `buildTagSet`, `matchesText`, `matchesTags`,
  `matchesEra`, `scoreRelevance`, the sort comparator of `applyFilters`, and
  the URL parameter codec `syncParams` / `readParams`;
* the 3D cloud page (namespace `Cloud`): `cleanFileDisplay`, `numericYear`,
  `displayTitleFor`, `matchesQuery`, and `buildDocsFromData`.

JavaScript runtime values are embedded as follows: nullable/optional fields
become `Option`, the loosely typed year values become `YearVal`
(number / string / null-or-undefined), the loosely typed tag sources become
`TagInput`, JS numbers that the code only ever treats as integers become
`Int`, and JS strings become `String` manipulated at the `List Char` level
(so that every definition evaluates by kernel reduction).  Truthiness of a
string value (used by the JS `||` chains) is "present and nonempty", which
`Js.firstTruthy` implements.  `Set` objects are embedded as duplicate-free
lists in insertion order.
-/

namespace Js

/-- ASCII lowercasing of a string, character by character (JS toLowerCase on
the ASCII data the archive holds). -/
def lowerStr (s : String) : String := ⟨s.toList.map Char.toLower⟩

/-- Prefix test on character lists. -/
def isPreL : List Char → List Char → Bool
  | [], _ => true
  | _ :: _, [] => false
  | a :: as, b :: bs => a == b && isPreL as bs

/-- Contiguous-sublist test on character lists. -/
def isSubL (n : List Char) (h : List Char) : Bool :=
  match h with
  | [] => n.isEmpty
  | _ :: t => isPreL n h || isSubL n t

/-- JS String.prototype.includes: does the needle occur contiguously in the
haystack? -/
def includes (hay sub : String) : Bool := isSubL sub.toList hay.toList

/-- Split a character list at every character satisfying the predicate,
keeping empty pieces, as JS split on a single-character class does. -/
def splitBy (p : Char → Bool) : List Char → List (List Char)
  | [] => [[]]
  | c :: rest =>
    let r := splitBy p rest
    if p c then [] :: r else (c :: r.headD []) :: r.tail

/-- Character list to string. -/
def strOf (l : List Char) : String := ⟨l⟩

/-- String-level wrapper of splitBy. -/
def splitStr (p : Char → Bool) (s : String) : List String :=
  (splitBy p s.toList).map strOf

/-- Whitespace class used by the embedding for the JS whitespace regex. -/
def isWsChar (c : Char) : Bool := c.isWhitespace

/-- Trim whitespace from both ends of a character list. -/
def trimChars (l : List Char) : List Char :=
  ((l.dropWhile isWsChar).reverse.dropWhile isWsChar).reverse

/-- JS String.prototype.trim. -/
def jsTrim (s : String) : String := strOf (trimChars s.toList)

/-- JS split on a whitespace-run regex with empty pieces filtered out
(the filter(Boolean) idiom of the source). -/
def wsTokens (s : String) : List String :=
  (splitStr isWsChar s).filter (fun t => t != "")

/-- First truthy value of a JS || chain over possibly-missing strings:
skips absent values and empty strings. -/
def firstTruthy : List (Option String) → Option String
  | [] => none
  | some s :: rest => if s = "" then firstTruthy rest else some s
  | none :: rest => firstTruthy rest

/-- JS nullish coalescing a ?? b (empty strings are kept, unlike ||). -/
def nullish {α : Type} (a b : Option α) : Option α :=
  match a with
  | some x => some x
  | none => b

/-- Decimal value of a digit run. -/
def digitsToInt (l : List Char) : Int :=
  l.foldl (fun a c => a * 10 + ((c.toNat : Int) - 48)) 0

/-- JS parseInt(s, 10): skip leading whitespace, optional sign, then read a
leading run of decimal digits; no digits means NaN, embedded as none. -/
def parseIntTen (s : String) : Option Int :=
  let l := s.toList.dropWhile isWsChar
  let sl : Int × List Char :=
    match l with
    | '-' :: r => (-1, r)
    | '+' :: r => (1, r)
    | _ => (1, l)
  let ds := sl.2.takeWhile Char.isDigit
  if ds.isEmpty then none else some (sl.1 * digitsToInt ds)

/-- The regex underscore test of the source. -/
def hasUnderscore (s : String) : Bool := s.toList.contains '_'

/-- JS Array.prototype.join with a separator. -/
def joinSep (sep : String) : List String → String
  | [] => ""
  | [x] => x
  | x :: y :: rest => x ++ sep ++ joinSep sep (y :: rest)

/-- Collapse every maximal run of characters satisfying p into a single
replacement character (the replace(/X+/g, rep) idiom). -/
def collapseRunsBy (p : Char → Bool) (rep : Char) : Bool → List Char → List Char
  | _, [] => []
  | inRun, c :: rest =>
    if p c then
      if inRun then collapseRunsBy p rep true rest
      else rep :: collapseRunsBy p rep true rest
    else c :: collapseRunsBy p rep false rest

end Js

/-- A JS year value as the sources deliver it: a (finite) number, a string,
or null/undefined/absent. -/
inductive YearVal where
  | num (n : Int)
  | str (s : String)
  | null
deriving DecidableEq

/-- numericYear of both pages: a finite number passes through, a string is
parsed with parseInt base 10, everything else is null. -/
def numericYear : YearVal → Option Int
  | .num n => some n
  | .str s => Js.parseIntTen s
  | .null => none

/-- View of a stored number-or-null year field as a YearVal, for the places
where the source re-applies numericYear to an already built field. -/
def yearToVal : Option Int → YearVal
  | some n => .num n
  | none => .null

/-- Strip a trailing dot-plus-alphanumeric-run extension, the
replace of a trailing dot-extension regex in cleanFileDisplay. -/
def stripExt (s : String) : String :=
  let r := s.toList.reverse
  let run := r.takeWhile Char.isAlphanum
  let rest := r.dropWhile Char.isAlphanum
  if run.isEmpty then s
  else
    match rest with
    | '.' :: more => Js.strOf more.reverse
    | _ => s

/-- cleanFileDisplay, textually identical in the search page and the cloud
page: last path segment, extension stripped, first three underscore
segments dropped, remainder joined with spaces, hyphen runs to single
spaces, whitespace collapsed and trimmed. -/
def cleanFileDisplay (name : String) : String :=
  let segs := Js.splitBy (fun c => c == '/') name.toList
  let base :=
    match segs.getLast? with
    | some l => if l.isEmpty then name else Js.strOf l
    | none => name
  let noExt := stripExt base
  let parts := (Js.splitBy (fun c => c == '_') noExt.toList).map Js.strOf
  let kept := Js.joinSep " " (parts.drop 3)
  let dehyph := Js.strOf (Js.collapseRunsBy (fun c => c == '-') ' ' false kept.toList)
  Js.jsTrim (Js.strOf (Js.collapseRunsBy Js.isWsChar ' ' false dehyph.toList))

/-- A loosely typed tag source as handled by coerceTags: null/undefined,
a delimited string, or an array whose non-string entries (embedded as none)
are dropped. -/
inductive TagInput where
  | null
  | str (s : String)
  | arr (l : List (Option String))

/-- The pushAny helper of coerceTags: falsy values contribute nothing,
arrays contribute their string entries, strings are split on semicolons and
commas (empty pieces included). -/
def pushAny : TagInput → List String
  | .null => []
  | .str s =>
    if s = "" then []
    else (Js.splitBy (fun c => c == ';' || c == ',') s.toList).map Js.strOf
  | .arr l => l.filterMap id

/-- Word count of a tag candidate, the split-on-whitespace length test of
coerceTags (applied there to already-trimmed nonempty strings). -/
def wordCount (t : String) : Nat :=
  ((Js.splitBy Js.isWsChar t.toList).filter (fun l => !l.isEmpty)).length

/-- The cleanup pipeline of coerceTags: trim, drop empties, drop long or
sentence-like candidates, then deduplicate case-insensitively keeping the
first-seen casing and order. -/
def cleanTags (out : List String) : List String :=
  let trimmed := out.map Js.jsTrim
  let nonempty := trimmed.filter (fun t => decide (0 < t.length))
  let bounded := nonempty.filter (fun t => decide (t.length ≤ 40) && decide (wordCount t ≤ 5))
  bounded.foldl
    (fun acc cur =>
      if acc.any (fun x => Js.lowerStr x == Js.lowerStr cur) then acc else acc ++ [cur]) []

/-- coerceTags of the search page: push the record tags and the item tags,
fall back to topics only when the raw pushed list is empty, then clean. -/
def coerceTags (recTags itemTags topics : TagInput) : List String :=
  let out := pushAny recTags ++ pushAny itemTags
  let out2 := if out.length = 0 then out ++ pushAny topics else out
  cleanTags out2

/-- The three era keys of both pages. -/
inductive EraKey where
  | precursors
  | thick
  | today
deriving DecidableEq

/-- The PERIODS table, identical on both pages: inclusive year ranges. -/
def PERIODS : EraKey → Int × Int
  | .precursors => (1940, 1959)
  | .thick => (1960, 1989)
  | .today => (1990, 2100)

namespace Search

/-- FullRecord of the search page (source B, the by-identity detail record);
every field may be absent or null. -/
structure FullRecord where
  id : String
  title : Option String
  year : YearVal
  description : Option String
  repository : Option String
  tags : TagInput
  url : Option String
  previewLocal : Option String
  topics : TagInput
  hires : Option (List String)
  schoolPrimary : Option String

/-- CloudItem of the search page (source A, the summary manifest entry). -/
structure CloudItem where
  id : String
  title : String
  year : YearVal
  repository : Option String
  mediaType : Option String
  description : Option String
  schoolPrimary : Option String
  schoolSecondary : Option String
  tags : TagInput
  link : Option String
  previewLocal : String
  documentDirect : Option String

/-- The built Doc of the search page. -/
structure Doc where
  id : String
  title : String
  rawTitle : String
  year : Option Int
  url : Option String
  tags : List String
  repo : Option String
  iconURL : String
  description : Option String
deriving DecidableEq

/-- View of the record tags of a possibly-missing record (undefined becomes
the null tag source). -/
def recTagsIn (r : Option FullRecord) : TagInput :=
  match r with
  | some x => x.tags
  | none => .null

/-- View of the record topics of a possibly-missing record. -/
def recTopicsIn (r : Option FullRecord) : TagInput :=
  match r with
  | some x => x.topics
  | none => .null

/-- View of the record year of a possibly-missing record (undefined is a
null year for numericYear). -/
def recYearIn (r : Option FullRecord) : YearVal :=
  match r with
  | some x => x.year
  | none => .null

/-- The per-item body of the buildDocs map of the search page. -/
def buildDoc (byId : String → Option FullRecord) (it : CloudItem) : Doc :=
  let r := byId it.id
  let url := Js.firstTruthy [it.documentDirect, r.bind (fun x => x.url), it.link]
  let rawTitle := (Js.firstTruthy [r.bind (fun x => x.title), some it.title]).getD "Untitled"
  let display := if Js.hasUnderscore rawTitle then cleanFileDisplay rawTitle else rawTitle
  let tags := coerceTags (recTagsIn r) it.tags (recTopicsIn r)
  { id := it.id
    title := display
    rawTitle := rawTitle
    year := Js.nullish (numericYear it.year) (numericYear (recYearIn r))
    url := url
    tags := tags
    repo := Js.nullish (r.bind (fun x => x.repository)) it.repository
    iconURL := it.previewLocal
    description := Js.nullish (r.bind (fun x => x.description)) it.description }

/-- buildDocs of the search page: map the per-item builder over source A. -/
def buildDocs (cloud : List CloudItem) (byId : String → Option FullRecord) : List Doc :=
  cloud.map (buildDoc byId)

/-- Insert into a sorted list according to a boolean comparator, keeping
earlier elements first on ties (stability of the embedded sort). -/
def insertLe (le : String → String → Bool) (x : String) : List String → List String
  | [] => [x]
  | y :: ys => if le y x then y :: insertLe le x ys else x :: y :: ys

/-- Sorting of a string list by a boolean comparator: the embedding of
Array.prototype.sort with the localeCompare comparator, which produces a
sorted permutation of its input.  The comparator is a parameter because
localeCompare is locale-dependent. -/
def sortByLe (le : String → String → Bool) : List String → List String
  | [] => []
  | x :: xs => insertLe le x (sortByLe le xs)

/-- The insertion-order deduplicating Set of buildTagSet: add each tag once,
by exact string identity. -/
def setAdd (acc : List String) (t : String) : List String :=
  if acc.contains t then acc else acc ++ [t]

/-- buildTagSet of the search page: one pass over all built docs' tags into
a Set (exact string identity, insertion order), then sorted with the
locale-aware comparator le. -/
def buildTagSet (le : String → String → Bool) (docs : List Doc) : List String :=
  sortByLe le ((docs.flatMap (fun d => d.tags)).foldl setAdd [])

/-- The haystack of matchesText: lowercased title, description, and tags. -/
def hayOf (d : Doc) : List String :=
  [Js.lowerStr d.title, Js.lowerStr (d.description.getD "")] ++ d.tags.map Js.lowerStr

/-- The token list of matchesText and matchesQuery: lowercase, split on
whitespace, drop empty tokens. -/
def toksOf (query : String) : List String := Js.wsTokens (Js.lowerStr query)

/-- matchesText of the search page. -/
def matchesText (d : Doc) (query : String) : Bool :=
  if Js.jsTrim query = "" then true
  else (toksOf query).all (fun t => (hayOf d).any (fun h => Js.includes h t))

/-- matchesTags of the search page: every active tag must be present in the
document's lowercased tag set. -/
def matchesTags (activeTags : List String) (d : Doc) : Bool :=
  if activeTags.length = 0 then true
  else
    let set := d.tags.map Js.lowerStr
    activeTags.all (fun t => set.contains (Js.lowerStr t))

/-- matchesEra of the search page: with an active era the resolved year must
be non-null and inside the inclusive era bounds. -/
def matchesEra (activeEra : Option EraKey) (d : Doc) : Bool :=
  match activeEra with
  | none => true
  | some k =>
    let p := PERIODS k
    match numericYear (yearToVal d.year) with
    | some y => decide (p.1 ≤ y) && decide (y ≤ p.2)
    | none => false

/-- scoreRelevance of the search page: 5 for a title hit of the full
lowercased query, 2 for a description hit, 1 per tag hit; blank queries
score 0. -/
def scoreRelevance (d : Doc) (query : String) : Int :=
  if Js.jsTrim query = "" then 0
  else
    let ql := Js.lowerStr query
    let title := Js.lowerStr d.title
    let desc := Js.lowerStr (d.description.getD "")
    let base : Int := (if Js.includes title ql then 5 else 0) + (if Js.includes desc ql then 2 else 0)
    d.tags.foldl (fun sc t => if Js.includes (Js.lowerStr t) ql then sc + 1 else sc) base

/-- The sort comparator of applyFilters, parameterized by the locale
comparator lc used in the title-asc branch.  A negative result orders a
before b. -/
def sortCompare (lc : String → String → Int) (sortv : String) (q : String) (a b : Doc) : Int :=
  if sortv = "year-desc" then
    (numericYear (yearToVal b.year)).getD (-1) - (numericYear (yearToVal a.year)).getD (-1)
  else if sortv = "year-asc" then
    (numericYear (yearToVal a.year)).getD 1 - (numericYear (yearToVal b.year)).getD 1
  else if sortv = "title-asc" then lc a.title b.title
  else scoreRelevance b q - scoreRelevance a q

/-- The filter-and-sort state of the search page: the query, the active tag
Set in insertion order, the active era, and the sort select value. -/
structure FilterState where
  q : String
  tags : List String
  era : Option EraKey
  sortv : String
deriving DecidableEq

/-- The era key written into the era URL parameter. -/
def eraKeyStr : EraKey → String
  | .precursors => "precursors"
  | .thick => "thick"
  | .today => "today"

/-- The inverse reading of an era URL parameter, none for anything outside
the PERIODS table. -/
def parseEraKey (s : String) : Option EraKey :=
  if s = "precursors" then some .precursors
  else if s = "thick" then some .thick
  else if s = "today" then some .today
  else none

/-- The fixed sort-mode vocabulary accepted by readParams. -/
def validSorts : List String := ["relevance", "year-desc", "year-asc", "title-asc"]

/-- syncParams of the search page, at the level of URL parameter pairs:
q only when nonempty, the comma-joined tag Set only when nonempty, the era
only when active, and the sort value always. -/
def syncParams (st : FilterState) : List (String × String) :=
  (if st.q ≠ "" then [("q", st.q)] else []) ++
  (if st.tags.length ≠ 0 then [("tags", Js.joinSep "," st.tags)] else []) ++
  (match st.era with
   | some e => [("era", eraKeyStr e)]
   | none => []) ++
  [("sort", st.sortv)]

/-- readParams of the search page, at the level of URL parameter pairs,
updating an initial state: q only from a nonempty parameter, tags split on
commas with empties dropped and added to the existing Set, the sort value
only when it is in the fixed vocabulary, the era only when it is a key of
the PERIODS table. -/
def readParams (ps : List (String × String)) (init : FilterState) : FilterState :=
  let q2 :=
    match ps.lookup "q" with
    | some s => if s ≠ "" then s else init.q
    | none => init.q
  let newTags := (Js.splitStr (fun c => c == ',') ((ps.lookup "tags").getD "")).filter (fun t => t != "")
  let tags2 := newTags.foldl setAdd init.tags
  let sort2 :=
    match ps.lookup "sort" with
    | some s => if validSorts.contains s then s else init.sortv
    | none => init.sortv
  let era2 :=
    match ps.lookup "era" with
    | some s =>
      match parseEraKey s with
      | some e => some e
      | none => init.era
    | none => init.era
  { q := q2, tags := tags2, era := era2, sortv := sort2 }

end Search

namespace Cloud

/-- FullRecord of the cloud page (source B): title is required by the type,
the other fields may be absent or null. -/
structure FullRecord where
  id : String
  title : String
  year : Option Int
  repository : Option String
  location : Option String
  mediaType : Option String
  description : Option String
  schoolPrimary : Option String
  schoolSecondary : Option String
  tags : Option (List String)
  url : Option String
  hires : Option (List String)
  permissions : Option Bool
  thumbSource : Option String
  topics : Option (List String)

/-- CloudItem of the cloud page (source A). -/
structure CloudItem where
  id : String
  title : String
  year : Option Int
  repository : Option String
  mediaType : Option String
  description : Option String
  schoolPrimary : Option String
  schoolSecondary : Option String
  tags : List String
  link : Option String
  previewLocal : String
  documentDirect : Option String

/-- The rough legacy topic bucket of the cloud page. -/
inductive Topic where
  | protest
  | flyer
  | surveillance
  | policy
  | media
  | other
deriving DecidableEq

/-- The built Doc of the cloud page. -/
structure Doc where
  id : String
  title : String
  year : Option Int
  url : Option String
  topic : Topic
  tags : List String
  repo : Option String
  iconURL : String
  schoolPrimary : Option String
  description : Option String
  topicTitle : Option String

/-- The raw source-B tag list reachable from a document identity: the
rec tags or-empty-list idiom of matchesQuery. -/
def recTagsOf (byId : String → Option FullRecord) (id : String) : List String :=
  match byId id with
  | some r => r.tags.getD []
  | none => []

/-- The tag expression of buildDocsFromData: the record tags when present
and nonempty, otherwise the item tags. -/
def builtTags (r : Option FullRecord) (itTags : List String) : List String :=
  match r with
  | some x =>
    match x.tags with
    | some ts => if ts.length ≠ 0 then ts else itTags
    | none => itTags
  | none => itTags

/-- The topic bucket computation of buildDocsFromData, keyed off the
lowercased media type. -/
def topicOf (mt : String) : Topic :=
  if Js.includes mt "protest" then .protest
  else if Js.includes mt "flyer" then .flyer
  else if Js.includes mt "surveillance" then .surveillance
  else if Js.includes mt "policy" then .policy
  else if Js.includes mt "media" || Js.includes mt "newspaper" || Js.includes mt "press" then .media
  else .other

/-- The per-item body of the buildDocsFromData map of the cloud page.  Note
the title precedence: the source-A title first, then the source-B title,
then the literal Untitled, with no filename cleanup at build time. -/
def buildDoc (byId : String → Option FullRecord) (it : CloudItem) : Doc :=
  let r := byId it.id
  let url := Js.firstTruthy [it.documentDirect, r.bind (fun x => x.url), it.link]
  let topicTitle :=
    match r with
    | some x =>
      match x.topics with
      | some (t :: _) => some t
      | _ => none
    | none => none
  let mt := Js.lowerStr ((Js.firstTruthy [it.mediaType, r.bind (fun x => x.mediaType)]).getD "")
  { id := it.id
    title := (Js.firstTruthy [some it.title, r.map (fun x => x.title)]).getD "Untitled"
    year := Js.nullish it.year (r.bind (fun x => x.year))
    url := url
    topic := topicOf mt
    tags := builtTags r it.tags
    repo := Js.nullish (r.bind (fun x => x.repository)) it.repository
    iconURL := it.previewLocal
    schoolPrimary := Js.nullish (r.bind (fun x => x.schoolPrimary)) it.schoolPrimary
    description := Js.nullish (r.bind (fun x => x.description)) it.description
    topicTitle := topicTitle }

/-- buildDocsFromData of the cloud page. -/
def buildDocsFromData (cloud : List CloudItem) (byId : String → Option FullRecord) : List Doc :=
  cloud.map (buildDoc byId)

/-- displayTitleFor of the cloud page: clean the record title when it has an
underscore, else the doc title when it has one, else try the basename of
the first hires entry or the url, else fall back to the uncleaned titles or
Untitled. -/
def displayTitleFor (byId : String → Option FullRecord) (meta : Doc) : String :=
  let r := byId meta.id
  let recTitle : Option String := r.map (fun x => x.title)
  let recHit : Bool :=
    match recTitle with
    | some t => (t != "") && Js.hasUnderscore t
    | none => false
  if recHit then
    cleanFileDisplay (recTitle.getD "")
  else if (meta.title != "") && Js.hasUnderscore meta.title then
    cleanFileDisplay meta.title
  else
    let fromUrl := (Js.firstTruthy [r.bind (fun x => x.hires.bind List.head?), meta.url]).getD ""
    let base :=
      match (Js.splitBy (fun c => c == '/') fromUrl.toList).getLast? with
      | some l => Js.strOf l
      | none => ""
    if (fromUrl != "") && Js.hasUnderscore base then cleanFileDisplay base
    else (Js.firstTruthy [some meta.title, recTitle]).getD "Untitled"

/-- The tag-token test of matchesQuery: the token form tag:value with a
nonempty value (the anchored regex with a one-or-more group). -/
def isTagTok (t : String) : Bool :=
  Js.isPreL "tag:".toList t.toList && decide (4 < t.toList.length)

/-- The captured value of a tag token. -/
def tagVal (t : String) : String := Js.strOf (t.toList.drop 4)

/-- The combined lowercased tag pool of matchesQuery: the document tags
together with the raw source-B record tags. -/
def tagPool (byId : String → Option FullRecord) (meta : Doc) : List String :=
  (meta.tags ++ recTagsOf byId meta.id).map Js.lowerStr

/-- The haystack of matchesQuery: lowercased display title, description,
document tags, and raw source-B record tags. -/
def hayOf (byId : String → Option FullRecord) (meta : Doc) : List String :=
  [Js.lowerStr (displayTitleFor byId meta), Js.lowerStr (meta.description.getD "")] ++
    meta.tags.map Js.lowerStr ++ (recTagsOf byId meta.id).map Js.lowerStr

/-- matchesQuery of the cloud page: blank queries pass; otherwise every
lowercased whitespace token must either be a tag token whose value is in
the combined tag pool, or occur as a substring of some haystack entry. -/
def matchesQuery (byId : String → Option FullRecord) (meta : Doc) (q : String) : Bool :=
  if Js.jsTrim q = "" then true
  else
    (Search.toksOf q).all (fun t =>
      if isTagTok t then (tagPool byId meta).contains (tagVal t)
      else (hayOf byId meta).any (fun h => Js.includes h t))

end Cloud

/-- Lexicographic code-point order on character lists, a concrete stand-in
for the locale comparator in evaluated counterexamples. -/
def cpLeL : List Char → List Char → Bool
  | [], _ => true
  | _ :: _, [] => false
  | a :: as, b :: bs => if a == b then cpLeL as bs else decide (a < b)

/-- Lexicographic code-point order on strings. -/
def cpLe (a b : String) : Bool := cpLeL a.toList b.toList

/-- A concrete search-page document with the given title, description, tags
and year; the remaining fields are fixed throwaway values. -/
def mkSearchDoc (title : String) (desc : Option String) (tags : List String) (y : Option Int) : Search.Doc :=
  { id := "1", title := title, rawTitle := title, year := y, url := none,
    tags := tags, repo := none, iconURL := "p", description := desc }

/-- A concrete search-page source-A item with the given title and tags. -/
def mkSearchItem (title : String) (tags : TagInput) : Search.CloudItem :=
  { id := "1", title := title, year := .null, repository := none, mediaType := none,
    description := none, schoolPrimary := none, schoolSecondary := none,
    tags := tags, link := none, previewLocal := "p", documentDirect := none }

/-- An empty source-B table for the search page. -/
def noSearchRec : String → Option Search.FullRecord := fun _ => none

/-- A concrete cloud-page source-A item titled A. -/
def cloudItemA : Cloud.CloudItem :=
  { id := "1", title := "A", year := none, repository := none, mediaType := none,
    description := none, schoolPrimary := none, schoolSecondary := none,
    tags := [], link := none, previewLocal := "p", documentDirect := none }

/-- A concrete cloud-page source-B record titled B. -/
def cloudRecB : Cloud.FullRecord :=
  { id := "1", title := "B", year := none, repository := none, location := none,
    mediaType := none, description := none, schoolPrimary := none, schoolSecondary := none,
    tags := none, url := none, hires := none, permissions := none, thumbSource := none,
    topics := none }

/-- A source-B table of the cloud page mapping every identity to the record
titled B. -/
def byIdRecB : String → Option Cloud.FullRecord := fun _ => some cloudRecB

/-- The strike-scoring document of the relevance example: title hit,
description hit, and one tag hit. -/
def strikeDoc : Search.Doc :=
  mkSearchDoc "Strike Committee" (some "A call to strike in 1968") ["strike", "labor"] (some 1968)

/-- A document whose title contains a space, used for the blank-query
relevance counterexample. -/
def spaceTitleDoc : Search.Doc := mkSearchDoc "a b" none [] none

/-- Fold-and-count helper: the tag-scoring accumulation of scoreRelevance is
the count of matching tags added to the starting score. -/
theorem foldl_count_helper {α : Type} (p : α → Bool) (l : List α) (b : Int) :
    l.foldl (fun sc t => if p t then sc + 1 else sc) b = b + (l.countP p : Int) := by
  induction l generalizing b with
  | nil => simp
  | cons x xs ih =>
    simp only [List.foldl_cons, List.countP_cons, ih]
    by_cases h : p x = true
    · simp [h]; ring
    · simp [h]

/-- Permutation property of the comparator insertion. -/
theorem insertLe_perm (le : String → String → Bool) (x : String) (l : List String) :
    List.Perm (Search.insertLe le x l) (x :: l) := by
  induction l with
  | nil => simp [Search.insertLe]
  | cons y ys ih =>
    unfold Search.insertLe
    by_cases h : le y x = true
    · simp only [h, if_true]
      exact (ih.cons y).trans (List.Perm.swap x y ys)
    · simp [h]

/-- The embedded comparator sort permutes its input. -/
theorem sortByLe_perm (le : String → String → Bool) (l : List String) :
    List.Perm (Search.sortByLe le l) l := by
  induction l with
  | nil => simp [Search.sortByLe]
  | cons x xs ih => exact (insertLe_perm le x (Search.sortByLe le xs)).trans (ih.cons x)

/-- Membership through the deduplicating Set fold of buildTagSet. -/
theorem mem_foldl_setAdd (t : String) (l acc : List String) :
    t ∈ l.foldl Search.setAdd acc ↔ t ∈ acc ∨ t ∈ l := by
  induction l generalizing acc with
  | nil => simp
  | cons x xs ih =>
    have hstep : List.foldl Search.setAdd acc (x :: xs) = List.foldl Search.setAdd (Search.setAdd acc x) xs := rfl
    rw [hstep, ih]
    by_cases h : acc.contains x = true
    · have hx : x ∈ acc := by simpa using h
      have hset : Search.setAdd acc x = acc := by unfold Search.setAdd; rw [if_pos h]
      rw [hset]
      simp only [List.mem_cons]
      constructor
      · rintro (ha | hxs)
        · exact Or.inl ha
        · exact Or.inr (Or.inr hxs)
      · rintro (ha | rfl | hxs)
        · exact Or.inl ha
        · exact Or.inl hx
        · exact Or.inr hxs
    · have hset : Search.setAdd acc x = acc ++ [x] := by unfold Search.setAdd; rw [if_neg h]
      rw [hset]
      simp only [List.mem_append, List.mem_singleton, List.mem_cons]
      tauto

/-- The deduplicating Set fold keeps the accumulator free of exact
duplicates. -/
theorem nodup_foldl_setAdd (l : List String) (acc : List String) (h : acc.Nodup) :
    (l.foldl Search.setAdd acc).Nodup := by
  induction l generalizing acc with
  | nil => exact h
  | cons x xs ih =>
    have hstep : List.foldl Search.setAdd acc (x :: xs) = List.foldl Search.setAdd (Search.setAdd acc x) xs := rfl
    rw [hstep]
    apply ih
    by_cases hc : acc.contains x = true
    · have hset : Search.setAdd acc x = acc := by unfold Search.setAdd; rw [if_pos hc]
      rw [hset]; exact h
    · have hx : x ∉ acc := by simpa using hc
      have hset : Search.setAdd acc x = acc ++ [x] := by unfold Search.setAdd; rw [if_neg hc]
      rw [hset]
      simp [List.nodup_append, h, hx]

/-- Every raw source-B tag reachable from a built cloud document is already
in the document's built tag list: the builder takes the record tags
verbatim whenever they are nonempty, and otherwise the record contributes
no tags at all. -/
theorem recTagsOf_subset_builtTags (byId : String → Option Cloud.FullRecord)
    (it : Cloud.CloudItem) (t : String) (ht : t ∈ Cloud.recTagsOf byId it.id) :
    t ∈ (Cloud.buildDoc byId it).tags := by
  have htags : (Cloud.buildDoc byId it).tags = Cloud.builtTags (byId it.id) it.tags := rfl
  rw [htags]
  cases hb : byId it.id with
  | none => simp [Cloud.recTagsOf, hb] at ht
  | some r =>
    simp only [Cloud.recTagsOf, hb] at ht
    cases hts : r.tags with
    | none => rw [hts] at ht; simp at ht
    | some ts =>
      rw [hts] at ht
      simp only [Option.getD_some] at ht
      simp only [Cloud.builtTags, hts]
      by_cases hlen : ts.length ≠ 0
      · rw [if_pos hlen]; exact ht
      · have hnil : ts = [] := by simpa [List.length_eq_zero] using hlen
        subst hnil; simp at ht

/-- Claim C8 (confirmed): cleanFileDisplay on the sample filename strips the
trailing extension, drops the first three underscore segments, joins the
rest with spaces, turns hyphen runs into single spaces, and collapses and
trims whitespace; the function is textually identical in the search page
and the cloud page and embedded once. -/
theorem cleanFileDisplay_example :
    cleanFileDisplay "2021_NYU_flyer_Student-Coalition-Meeting.pdf" = "Student Coalition Meeting" := by
  decide

/-- Claim C9 (confirmed): encoding the filter state with query strike, tags
a and b, era thick, sort year-desc through syncParams and reading it back
through readParams from a fresh initial state reproduces the state exactly,
hence in particular with the same tag set, era key and sort mode. -/
theorem params_roundtrip_example :
    Search.readParams
        (Search.syncParams { q := "strike", tags := ["a", "b"], era := some .thick, sortv := "year-desc" })
        { q := "", tags := [], era := none, sortv := "relevance" } =
      { q := "strike", tags := ["a", "b"], era := some .thick, sortv := "year-desc" } := by
  decide

/-- Claim C6 (confirmed): era ranges are inclusive and boundary-adjacent: a
1959 document matches precursors and not thick, a 1960 document matches
thick and not precursors, 2100 matches today, 2101 matches no era, and a
document with a null resolved year matches no active era. -/
theorem matchesEra_boundaries (d1 d2 d3 d4 d5 : Search.Doc)
    (h1 : d1.year = some 1959) (h2 : d2.year = some 1960) (h3 : d3.year = some 2100)
    (h4 : d4.year = some 2101) (h5 : d5.year = none) :
    (Search.matchesEra (some .precursors) d1 = true ∧ Search.matchesEra (some .thick) d1 = false) ∧
    (Search.matchesEra (some .thick) d2 = true ∧ Search.matchesEra (some .precursors) d2 = false) ∧
    Search.matchesEra (some .today) d3 = true ∧
    (∀ e, Search.matchesEra (some e) d4 = false) ∧
    (∀ e, Search.matchesEra (some e) d5 = false) := by
  refine ⟨⟨?_, ?_⟩, ⟨?_, ?_⟩, ?_, ?_, ?_⟩
  · simp only [Search.matchesEra, h1]; decide
  · simp only [Search.matchesEra, h1]; decide
  · simp only [Search.matchesEra, h2]; decide
  · simp only [Search.matchesEra, h2]; decide
  · simp only [Search.matchesEra, h3]; decide
  · intro e; simp only [Search.matchesEra, h4]; cases e <;> decide
  · intro e; simp only [Search.matchesEra, h5]; cases e <;> decide

/-- Witness for the era boundary theorem at five concrete documents. -/
theorem matchesEra_boundaries_witness :
    Search.matchesEra (some .precursors) (mkSearchDoc "t" none [] (some 1959)) = true ∧
    Search.matchesEra (some .thick) (mkSearchDoc "t" none [] (some 1959)) = false ∧
    Search.matchesEra (some .thick) (mkSearchDoc "t" none [] (some 1960)) = true ∧
    Search.matchesEra (some .precursors) (mkSearchDoc "t" none [] (some 1960)) = false ∧
    Search.matchesEra (some .today) (mkSearchDoc "t" none [] (some 2100)) = true ∧
    Search.matchesEra (some .thick) (mkSearchDoc "t" none [] (some 2101)) = false ∧
    Search.matchesEra (some .thick) (mkSearchDoc "t" none [] none) = false := by
  have h := matchesEra_boundaries
    (mkSearchDoc "t" none [] (some 1959)) (mkSearchDoc "t" none [] (some 1960))
    (mkSearchDoc "t" none [] (some 2100)) (mkSearchDoc "t" none [] (some 2101))
    (mkSearchDoc "t" none [] none) rfl rfl rfl rfl rfl
  exact ⟨h.1.1, h.1.2, h.2.1.1, h.2.1.2, h.2.2.1, h.2.2.2.1 .thick, h.2.2.2.2 .thick⟩

/-- Counterexample for claim C2: under year-asc the comparator value of a
null-year document against a 1960 document is negative, so the null-year
document is ordered before, not after, the document with a real year; the
null sentinel is 1, not a very large value. -/
theorem yearAsc_null_sentinel_cex :
    Search.sortCompare (fun _ _ => 0) "year-asc" ""
        (mkSearchDoc "x" none [] none) (mkSearchDoc "y" none [] (some 1960)) = -1959 ∧
    ((-1959 : Int) < 0) := by
  decide

/-- Claim C2 as amended: under year-asc a null resolved year is replaced by
the sentinel 1, so a null-year document sorts before any document whose
year exceeds 1 — for all real archive years the null-year document comes
first, not last. -/
theorem yearAsc_null_sentinel (lc : String → String → Int) (q : String)
    (a b : Search.Doc) (y : Int) (ha : a.year = none) (hb : b.year = some y) (hy : 1 < y) :
    Search.sortCompare lc "year-asc" q a b < 0 ∧ 0 < Search.sortCompare lc "year-asc" q b a := by
  have e1 : Search.sortCompare lc "year-asc" q a b = 1 - y := by
    unfold Search.sortCompare
    rw [if_neg (by decide), if_pos rfl, ha, hb]
    simp [yearToVal, numericYear]
  have e2 : Search.sortCompare lc "year-asc" q b a = y - 1 := by
    unfold Search.sortCompare
    rw [if_neg (by decide), if_pos rfl, ha, hb]
    simp [yearToVal, numericYear]
  omega

/-- Witness for the amended year-asc sentinel theorem at concrete
documents with a null year and the year 1960. -/
theorem yearAsc_null_sentinel_witness :
    Search.sortCompare (fun _ _ => 0) "year-asc" ""
        (mkSearchDoc "x" none [] none) (mkSearchDoc "y" none [] (some 1960)) < 0 ∧
    0 < Search.sortCompare (fun _ _ => 0) "year-asc" ""
        (mkSearchDoc "y" none [] (some 1960)) (mkSearchDoc "x" none [] none) :=
  yearAsc_null_sentinel (fun _ _ => 0) "" _ _ 1960 rfl rfl (by decide)

/-- Counterexample for claim C1: with a source-A item titled A whose
source-B record is titled B (both nonempty), the cloud-page builder
produces the title A — the cloud builder prefers the source-A title, so
the source-B-first precedence does not hold in both builders. -/
theorem buildDoc_title_precedence_cex :
    (Cloud.buildDoc byIdRecB cloudItemA).title = "A" ∧
    cloudItemA.title = "A" ∧ cloudRecB.title = "B" ∧ ("A" : String) ≠ "B" := by
  decide

/-- Claim C1 as amended: the search-page builder resolves the underlying
title as the first nonempty of the source-B title and the source-A title,
with the literal Untitled as last resort, and applies filename cleanup
exactly when that resolved title contains an underscore; the cloud-page
builder instead resolves the first nonempty of the source-A title and the
source-B title, with last resort Untitled, and applies no filename cleanup
at build time. -/
theorem buildDoc_title_precedence
    (byIdS : String → Option Search.FullRecord) (itS : Search.CloudItem)
    (byIdC : String → Option Cloud.FullRecord) (itC : Cloud.CloudItem) :
    (Search.buildDoc byIdS itS).rawTitle
        = (Js.firstTruthy [(byIdS itS.id).bind (fun x => x.title), some itS.title]).getD "Untitled" ∧
    (Search.buildDoc byIdS itS).title
        = (if Js.hasUnderscore (Search.buildDoc byIdS itS).rawTitle then
            cleanFileDisplay (Search.buildDoc byIdS itS).rawTitle
          else (Search.buildDoc byIdS itS).rawTitle) ∧
    (Cloud.buildDoc byIdC itC).title
        = (Js.firstTruthy [some itC.title, (byIdC itC.id).map (fun x => x.title)]).getD "Untitled" :=
  ⟨rfl, rfl, rfl⟩

/-- Counterexample for claim C4: a whitespace-only primary tag source
pushes one raw entry, so the topics fallback is suppressed even though the
cleanup then removes that entry — the result is empty rather than derived
from topics; had the fallback fired, topics would have produced a tag. -/
theorem coerceTags_fallback_cex :
    coerceTags (.str "   ") .null (.arr [some "history"]) = [] ∧
    coerceTags .null .null (.arr [some "history"]) = ["history"] := by
  decide

/-- Claim C4 as amended: coerceTags falls back to the topics source exactly
when primary and secondary together contribute zero raw entries, a test
made before trimming and filtering; whitespace-only or junk entries still
count as raw contributions and suppress the fallback, so the combined
result being empty after cleanup does not trigger topics. -/
theorem coerceTags_fallback_raw (r i t : TagInput) :
    coerceTags r i t =
      if pushAny r ++ pushAny i = [] then coerceTags .null .null t
      else coerceTags r i .null := by
  have hnull : pushAny .null = ([] : List String) := rfl
  by_cases h : pushAny r ++ pushAny i = []
  · rw [if_pos h]
    show cleanTags (if (pushAny r ++ pushAny i).length = 0
            then (pushAny r ++ pushAny i) ++ pushAny t else pushAny r ++ pushAny i)
        = cleanTags (if (pushAny .null ++ pushAny .null).length = 0
            then (pushAny .null ++ pushAny .null) ++ pushAny t else pushAny .null ++ pushAny .null)
    rw [h, hnull]
    simp
  · rw [if_neg h]
    have hlen : ¬(pushAny r ++ pushAny i).length = 0 := by
      simpa [List.length_eq_zero] using h
    show cleanTags (if (pushAny r ++ pushAny i).length = 0
            then (pushAny r ++ pushAny i) ++ pushAny t else pushAny r ++ pushAny i)
        = cleanTags (if (pushAny r ++ pushAny i).length = 0
            then (pushAny r ++ pushAny i) ++ pushAny .null else pushAny r ++ pushAny i)
    rw [if_neg hlen, if_neg hlen]

/-- Counterexample for claim C3: two built documents carrying the
differently-cased tags Foo and foo yield a vocabulary with two entries of
the same case-insensitive equivalence class — the tag index deduplicates
by exact string identity only. -/
theorem buildTagSet_case_insensitive_cex :
    Search.buildTagSet cpLe
        (Search.buildDocs [mkSearchItem "t" (.str "Foo"), mkSearchItem "t" (.str "foo")] noSearchRec)
      = ["Foo", "foo"] ∧
    Js.lowerStr "Foo" = Js.lowerStr "foo" := by
  decide

/-- Inserting with a total and transitive comparator preserves pairwise
sortedness. -/
theorem insertLe_pairwise (le : String → String → Bool)
    (htot : ∀ a b, le a b = true ∨ le b a = true)
    (htrans : ∀ a b c, le a b = true → le b c = true → le a c = true)
    (x : String) (l : List String)
    (hl : List.Pairwise (fun a b => le a b = true) l) :
    List.Pairwise (fun a b => le a b = true) (Search.insertLe le x l) := by
  induction l with
  | nil => simp [Search.insertLe]
  | cons y ys ih =>
    rcases List.pairwise_cons.mp hl with ⟨hy, hys⟩
    unfold Search.insertLe
    by_cases h : le y x = true
    · rw [if_pos h]
      refine List.pairwise_cons.mpr ⟨?_, ih hys⟩
      intro z hz
      rcases List.mem_cons.mp ((insertLe_perm le x ys).mem_iff.mp hz) with rfl | hzys
      · exact h
      · exact hy z hzys
    · rw [if_neg h]
      have hxy : le x y = true := (htot x y).resolve_right (by simpa using h)
      refine List.pairwise_cons.mpr ⟨?_, hl⟩
      intro z hz
      rcases List.mem_cons.mp hz with rfl | hzys
      · exact hxy
      · exact htrans x y z hxy (hy z hzys)

/-- The embedded comparator sort produces a pairwise-sorted list for any
total and transitive comparator. -/
theorem sortByLe_pairwise (le : String → String → Bool)
    (htot : ∀ a b, le a b = true ∨ le b a = true)
    (htrans : ∀ a b c, le a b = true → le b c = true → le a c = true)
    (l : List String) :
    List.Pairwise (fun a b => le a b = true) (Search.sortByLe le l) := by
  induction l with
  | nil => simp [Search.sortByLe]
  | cons x xs ih => exact insertLe_pairwise le htot htrans x _ ih

/-- The code-point comparator is total. -/
theorem cpLeL_total (a : List Char) : ∀ b, cpLeL a b = true ∨ cpLeL b a = true := by
  induction a with
  | nil => intro b; left; rfl
  | cons x xs ih =>
    intro b
    cases b with
    | nil => right; rfl
    | cons y ys =>
      by_cases hxy : x = y
      · subst hxy
        have hbeq : (x == x) = true := beq_self_eq_true x
        unfold cpLeL
        rw [if_pos hbeq, if_pos hbeq]
        exact ih ys
      · have h1 : (x == y) = false := beq_eq_false_iff_ne.mpr hxy
        have h2 : (y == x) = false := beq_eq_false_iff_ne.mpr (Ne.symm hxy)
        unfold cpLeL
        rw [if_neg (by simp [h1]), if_neg (by simp [h2])]
        rcases lt_or_gt_of_ne hxy with hlt | hgt
        · left; simpa using hlt
        · right; simpa using hgt

/-- Step equation of the code-point comparator on equal heads. -/
theorem cpLeL_cons_self (x : Char) (xs ys : List Char) :
    cpLeL (x :: xs) (x :: ys) = cpLeL xs ys := by
  show (if (x == x) = true then cpLeL xs ys else decide (x < x)) = cpLeL xs ys
  rw [if_pos (beq_self_eq_true x)]

/-- Step equation of the code-point comparator on distinct heads. -/
theorem cpLeL_cons_ne (x y : Char) (xs ys : List Char) (h : (x == y) = false) :
    cpLeL (x :: xs) (y :: ys) = decide (x < y) := by
  show (if (x == y) = true then cpLeL xs ys else decide (x < y)) = decide (x < y)
  rw [if_neg (by simp [h])]

/-- The code-point comparator is transitive. -/
theorem cpLeL_trans (a : List Char) :
    ∀ b c, cpLeL a b = true → cpLeL b c = true → cpLeL a c = true := by
  induction a with
  | nil => intro b c _ _; rfl
  | cons x xs ih =>
    intro b c h1 h2
    cases b with
    | nil => exact absurd h1 (by simp [cpLeL])
    | cons y ys =>
      cases c with
      | nil => exact absurd h2 (by simp [cpLeL])
      | cons z zs =>
        by_cases hxy : x = y
        · subst hxy
          rw [cpLeL_cons_self] at h1
          by_cases hyz : x = z
          · subst hyz
            rw [cpLeL_cons_self] at h2
            rw [cpLeL_cons_self]
            exact ih ys zs h1 h2
          · have hb2 : (x == z) = false := beq_eq_false_iff_ne.mpr hyz
            rw [cpLeL_cons_ne x z ys zs hb2] at h2
            rw [cpLeL_cons_ne x z xs zs hb2]
            exact h2
        · have hb1 : (x == y) = false := beq_eq_false_iff_ne.mpr hxy
          rw [cpLeL_cons_ne x y xs ys hb1] at h1
          have hlt1 : x < y := by simpa using h1
          by_cases hyz : y = z
          · subst hyz
            rw [cpLeL_cons_ne x y xs zs hb1]
            simpa using hlt1
          · have hb2 : (y == z) = false := beq_eq_false_iff_ne.mpr hyz
            rw [cpLeL_cons_ne y z ys zs hb2] at h2
            have hlt2 : y < z := by simpa using h2
            have hltz : x < z := lt_trans hlt1 hlt2
            have hb4 : (x == z) = false := beq_eq_false_iff_ne.mpr (ne_of_lt hltz)
            rw [cpLeL_cons_ne x z xs zs hb4]
            simpa using hltz

/-- Totality of the string code-point comparator. -/
theorem cpLe_total (a b : String) : cpLe a b = true ∨ cpLe b a = true :=
  cpLeL_total a.toList b.toList

/-- Transitivity of the string code-point comparator. -/
theorem cpLe_trans (a b c : String) (h1 : cpLe a b = true) (h2 : cpLe b c = true) :
    cpLe a c = true :=
  cpLeL_trans a.toList b.toList c.toList h1 h2

/-- Claim C3 as amended: the vocabulary of the tag index contains at most
one entry per exact tag string (case-insensitive deduplication happens only
inside each document's own coerced tag list, not across documents), its
membership is exactly the tags of the built documents, and for any total
and transitive comparator — as the locale comparison is — the output is
pairwise sorted by that comparator. -/
theorem buildTagSet_exact_dedup (le : String → String → Bool) (docs : List Search.Doc) :
    (Search.buildTagSet le docs).Nodup ∧
    (∀ t, t ∈ Search.buildTagSet le docs ↔ ∃ d ∈ docs, t ∈ d.tags) ∧
    ((∀ a b, le a b = true ∨ le b a = true) →
      (∀ a b c, le a b = true → le b c = true → le a c = true) →
      List.Pairwise (fun a b => le a b = true) (Search.buildTagSet le docs)) := by
  unfold Search.buildTagSet
  refine ⟨?_, ?_, ?_⟩
  · exact (sortByLe_perm le _).symm.nodup (nodup_foldl_setAdd _ _ List.nodup_nil)
  · intro t
    rw [(sortByLe_perm le _).mem_iff, mem_foldl_setAdd]
    simp [List.mem_flatMap]
  · intro htot htrans
    exact sortByLe_pairwise le htot htrans _

/-- Witness for the amended tag-index theorem at the concrete code-point
comparator and the two-document collection of the counterexample,
discharging the totality and transitivity hypotheses. -/
theorem buildTagSet_exact_dedup_witness :
    List.Pairwise (fun a b => cpLe a b = true)
      (Search.buildTagSet cpLe
        (Search.buildDocs [mkSearchItem "t" (.str "Foo"), mkSearchItem "t" (.str "foo")] noSearchRec)) ∧
    (Search.buildTagSet cpLe
      (Search.buildDocs [mkSearchItem "t" (.str "Foo"), mkSearchItem "t" (.str "foo")] noSearchRec)).Nodup := by
  have h := buildTagSet_exact_dedup cpLe
    (Search.buildDocs [mkSearchItem "t" (.str "Foo"), mkSearchItem "t" (.str "foo")] noSearchRec)
  exact ⟨h.2.2 cpLe_total cpLe_trans, h.1⟩

/-- Counterexample for claim C7: the query consisting of one space is
non-empty and occurs in the title of a document titled with two words, so
the claimed additive formula gives 5, yet scoreRelevance returns 0 because
it blanks on whitespace-only queries. -/
theorem scoreRelevance_blank_cex :
    (" " : String) ≠ "" ∧
    Search.scoreRelevance spaceTitleDoc " " = 0 ∧
    ((if Js.includes (Js.lowerStr spaceTitleDoc.title) (Js.lowerStr " ") then (5 : Int) else 0) +
        (if Js.includes (Js.lowerStr (spaceTitleDoc.description.getD "")) (Js.lowerStr " ") then 2 else 0) +
        (spaceTitleDoc.tags.countP (fun t => Js.includes (Js.lowerStr t) (Js.lowerStr " ")) : Int)) = 5 := by
  decide

/-- Claim C7 as amended: for every document and every query containing
non-whitespace, the relevance score is additive and uncapped — 5 for a
title hit of the full lowercased query, plus 2 for a description hit, plus
1 per tag containing it — while empty or whitespace-only queries score 0;
the strike example scores exactly 8. -/
theorem scoreRelevance_additive :
    (∀ (d : Search.Doc) (q : String),
      Search.scoreRelevance d q =
        if Js.jsTrim q = "" then 0
        else
          (if Js.includes (Js.lowerStr d.title) (Js.lowerStr q) then (5 : Int) else 0) +
            (if Js.includes (Js.lowerStr (d.description.getD "")) (Js.lowerStr q) then 2 else 0) +
            (d.tags.countP (fun t => Js.includes (Js.lowerStr t) (Js.lowerStr q)) : Int)) ∧
    Search.scoreRelevance strikeDoc "strike" = 8 := by
  constructor
  · intro d q
    unfold Search.scoreRelevance
    by_cases hq : Js.jsTrim q = ""
    · rw [if_pos hq, if_pos hq]
    · rw [if_neg hq, if_neg hq]
      exact foldl_count_helper (fun t => Js.includes (Js.lowerStr t) (Js.lowerStr q)) d.tags _
  · decide

/-- Boolean list containment agrees with membership for strings. -/
theorem contains_mem_helper (l : List String) (a : String) : l.contains a = true ↔ a ∈ l := by
  simp

/-- Claim C5 (confirmed): a blank query always passes; otherwise the query
is split on whitespace into lowercased tokens and the document passes
exactly when every token occurs as a substring of the lowercased title,
description, or some tag (OR across fields, AND across tokens); in the
cloud variant a token of the form tag:value instead requires exact
case-insensitive membership of the value in the combined tag pool, all
other tokens using substring match against the haystack. -/
theorem text_predicate_semantics :
    (∀ (d : Search.Doc) (q : String),
      Search.matchesText d q = true ↔
        (Js.jsTrim q = "" ∨
          ∀ t ∈ Search.toksOf q, ∃ h ∈ Search.hayOf d, Js.includes h t = true)) ∧
    (∀ (byId : String → Option Cloud.FullRecord) (meta : Cloud.Doc) (q : String),
      Cloud.matchesQuery byId meta q = true ↔
        (Js.jsTrim q = "" ∨
          ∀ t ∈ Search.toksOf q,
            if Cloud.isTagTok t = true then Cloud.tagVal t ∈ Cloud.tagPool byId meta
            else ∃ h ∈ Cloud.hayOf byId meta, Js.includes h t = true)) := by
  constructor
  · intro d q
    unfold Search.matchesText
    by_cases hq : Js.jsTrim q = ""
    · simp [hq]
    · rw [if_neg hq]
      constructor
      · intro hall
        refine Or.inr ?_
        intro t htm
        exact List.any_eq_true.mp (List.all_eq_true.mp hall t htm)
      · rintro (hc | hall)
        · exact absurd hc hq
        · exact List.all_eq_true.mpr fun t htm => List.any_eq_true.mpr (hall t htm)
  · intro byId meta q
    unfold Cloud.matchesQuery
    by_cases hq : Js.jsTrim q = ""
    · simp [hq]
    · rw [if_neg hq]
      constructor
      · intro hall
        refine Or.inr ?_
        intro t htm
        have h1 := List.all_eq_true.mp hall t htm
        by_cases htag : Cloud.isTagTok t = true
        · rw [if_pos htag] at h1
          rw [if_pos htag]
          exact (contains_mem_helper _ _).mp h1
        · rw [if_neg htag] at h1
          rw [if_neg htag]
          exact List.any_eq_true.mp h1
      · rintro (hc | hall)
        · exact absurd hc hq
        · apply List.all_eq_true.mpr
          intro t htm
          have h1 := hall t htm
          by_cases htag : Cloud.isTagTok t = true
          · rw [if_pos htag] at h1
            rw [if_pos htag]
            exact (contains_mem_helper _ _).mpr h1
          · rw [if_neg htag] at h1
            rw [if_neg htag]
            exact List.any_eq_true.mpr h1

/-- Counterexample (negation) for claim C10: no source-B tag reachable from
a built cloud document is ever excluded from that document's built tag
list, so no document can match a query solely via an excluded source-B
tag — the claimed situation is impossible for documents produced by
buildDocsFromData. -/
theorem cloud_no_excluded_recTag :
    ¬ ∃ (byId : String → Option Cloud.FullRecord) (it : Cloud.CloudItem) (t : String),
        t ∈ Cloud.recTagsOf byId it.id ∧ t ∉ (Cloud.buildDoc byId it).tags := by
  rintro ⟨byId, it, t, ht, hnot⟩
  exact hnot (recTagsOf_subset_builtTags byId it t ht)

/-- Claim C10 as amended: matchesQuery does consult the raw source-B tag
list in addition to the document's own tag list, but for documents built
by buildDocsFromData this is redundant — the built tag list is the record
tag list itself whenever the record has tags, so the combined tag pool and
the haystack coincide, as sets, with the ones computed from the document's
own tags alone. -/
theorem cloud_tagPool_redundant (byId : String → Option Cloud.FullRecord)
    (it : Cloud.CloudItem) (s : String) :
    (s ∈ Cloud.tagPool byId (Cloud.buildDoc byId it) ↔
      s ∈ (Cloud.buildDoc byId it).tags.map Js.lowerStr) ∧
    (s ∈ Cloud.hayOf byId (Cloud.buildDoc byId it) ↔
      s = Js.lowerStr (Cloud.displayTitleFor byId (Cloud.buildDoc byId it)) ∨
      s = Js.lowerStr ((Cloud.buildDoc byId it).description.getD "") ∨
      s ∈ (Cloud.buildDoc byId it).tags.map Js.lowerStr) := by
  have hsub : ∀ x, x ∈ Cloud.recTagsOf byId it.id → x ∈ (Cloud.buildDoc byId it).tags :=
    fun x hx => recTagsOf_subset_builtTags byId it x hx
  constructor
  · unfold Cloud.tagPool
    simp only [List.map_append, List.mem_append]
    constructor
    · rintro (hA | hB)
      · exact hA
      · rcases List.mem_map.mp hB with ⟨x, hx, rfl⟩
        exact List.mem_map.mpr ⟨x, hsub x hx, rfl⟩
    · intro hA
      exact Or.inl hA
  · unfold Cloud.hayOf
    simp only [List.cons_append, List.nil_append, List.mem_cons, List.mem_append]
    constructor
    · rintro (h1 | h2 | h3 | h4)
      · exact Or.inl h1
      · exact Or.inr (Or.inl h2)
      · exact Or.inr (Or.inr h3)
      · rcases List.mem_map.mp h4 with ⟨x, hx, rfl⟩
        exact Or.inr (Or.inr (List.mem_map.mpr ⟨x, hsub x hx, rfl⟩))
    · rintro (h1 | h2 | h3)
      · exact Or.inl h1
      · exact Or.inr (Or.inl h2)
      · exact Or.inr (Or.inr (Or.inl h3))

